import Mathlib

/-!
Verification development for the `dbus-ble-sensors-py` BLE sensor decoder.

The definitions below are a shallow embedding of the Python sources:
  * `ble_device.py`    — `BleDevice.load_int`, `BleDevice.load_str`,
    `BleDevice._parse_manufacturer_data`, `BleDevice._check_configuration`
  * `ble_role.py`      — `BleRole.check_configuration`
  * `ble_device_teltonika.py` — `BleDeviceTeltonika._compute_regs`
  * `dbus_ble_sensors.py`     — the per-device portion of `_scan_callback`

Modelling conventions:
  * Python `bytes` payloads are `List Nat` (one entry per byte).
  * Python arbitrary-precision integers are `Int`/`Nat`; Python numeric
    values that may become fractional through `/` (true division) are `ℚ`
    (the source only ever divides by exact decimal scales, so rationals
    represent the intended values exactly).
  * Python `None` results are `Option.none`; Python exceptions are
    `Except.error` with the exception name as the message.
  * Python dicts keyed by insertion order are association lists; updating
    an existing key keeps its position, new keys are appended, exactly as
    CPython dicts behave.
-/

deriving instance DecidableEq for Except

/-- Python `int.from_bytes(bs, 'little')` on a little-endian byte list. -/
def from_bytes_le : List Nat → Nat
  | [] => 0
  | b :: rest => b + 256 * from_bytes_le rest

/-- Python `int.from_bytes(bs, byteorder, signed=signed)`:
big-endian reverses the byte order; `signed=True` reinterprets values with
the top bit set as negative (`u - 2^(8*len)`).  The guard
`2 ^ (8 * bs.length) ≤ 2 * u` is `u ≥ 2^(8*len - 1)` stated without
truncated subtraction, and is false for the empty list (`from_bytes(b'')`
is `0` in Python for both signed and unsigned). -/
def from_bytes (bs : List Nat) (bigEndian signed : Bool) : Int :=
  let u : Nat := from_bytes_le (if bigEndian then bs.reverse else bs)
  if signed ∧ 2 ^ (8 * bs.length) ≤ 2 * u then (u : Int) - 2 ^ (8 * bs.length)
  else (u : Int)

/-- The dbus value types admitted by `BleDevice._ALLOWED_TYPES`. -/
inductive FieldType
  | Boolean | Byte | Int16 | UInt16 | Int32 | UInt32 | Int64 | UInt64
  | Double | String
deriving DecidableEq

/-- `BleDevice._SIGNED_TYPES = [Int16, Int32, Int64]`. -/
def is_signed : FieldType → Bool
  | .Int16 | .Int32 | .Int64 => true
  | _ => false

/-- The `match _type` block of `load_int` that supplies a default bit
width when the reg has no explicit `bits`; `case _` (Double, String)
returns `None`. -/
def default_bits : FieldType → Option Nat
  | .Boolean | .Byte => some 8
  | .Int16 | .UInt16 => some 16
  | .Int32 | .UInt32 => some 32
  | .Int64 | .UInt64 => some 64
  | _ => none

/-- The two members of the `flags` list a reg may carry. -/
inductive RegFlag
  | REG_FLAG_BIG_ENDIAN | REG_FLAG_INVALID
deriving DecidableEq

/-- The `xlate` callbacks occurring in the sources (only
`BleDeviceTeltonika._byteToSignedInt`). -/
inductive Xlate
  | byteToSignedInt
deriving DecidableEq

/-- `_byteToSignedInt(byte) = byte if byte < 128 else byte - 256`. -/
def applyXlate : Xlate → ℚ → ℚ
  | .byteToSignedInt, q => if q < 128 then q else q - 256

/-- One entry of `info['regs']`: a register/field description dict.
Optional dict keys are `Option` fields defaulting to `none` (= key
absent).  `roles` entries are `Option String` because the Python list may
contain the ignore sentinel `None`. -/
structure Reg where
  name : String
  type : FieldType
  offset : Nat
  bits : Option Nat := none
  mask : Option Int := none
  shift : Option Nat := none
  scale : Option ℚ := none
  bias : Option ℚ := none
  flags : List RegFlag := []
  xlate : Option Xlate := none
  inval : Option ℚ := none
  roles : Option (List (Option String)) := none
deriving DecidableEq

/-- `BleDevice.load_int(reg, manufacturer_data)`, transcribed line by
line.  Notes on literal Python constructs:
  * `(bits + shift + 7) >> 3` is `(bits + shift + 7) / 8`;
  * `(1 << bits) - 1` is `2 ^ bits - 1`;
  * the walrus guards `if scale := ...:` / `if bias := ...:` skip the
    step when the value is `0` (falsy), not only when the key is absent;
  * `value == reg.get('inval', None)` compares the (possibly fractional)
    final value with the sentinel; when `inval` is absent the comparison
    with `None` is false, hence the `reg.inval = some value` test. -/
def load_int (reg : Reg) (data : List Nat) : Option ℚ :=
  match (match reg.bits with
         | some b => some b
         | none => default_bits reg.type) with
  | none => none
  | some bits =>
    let size := (bits + reg.shift.getD 0 + 7) / 8
    if (size : Int) > (data.length : Int) - (reg.offset : Int) then none
    else
      let value : Int := from_bytes ((data.drop reg.offset).take size)
        (reg.flags.contains .REG_FLAG_BIG_ENDIAN) (is_signed reg.type)
      let value : Int := match reg.mask with
        | some m => Int.land value m
        | none => value
      let value : Int := match reg.shift with
        | some s => Int.land (Int.shiftRight value s) ((2 ^ bits : Int) - 1)
        | none => value
      let value : ℚ := (value : ℚ)
      let value : ℚ := match reg.scale with
        | some s => if s = 0 then value else value / s
        | none => value
      let value : ℚ := match reg.bias with
        | some b => if b = 0 then value else value + b
        | none => value
      let value : ℚ := match reg.xlate with
        | some x => applyXlate x value
        | none => value
      if RegFlag.REG_FLAG_INVALID ∈ reg.flags ∧ reg.inval = some value then none
      else some value

/-- The effective bit width of a reg: explicit `bits` or the type
default (the first lines of `load_int`). -/
def resolve_bits (reg : Reg) : Option Nat :=
  match reg.bits with
  | some b => some b
  | none => default_bits reg.type

/-- `size = (bits + (shift if shift is not None else 0) + 7) >> 3`. -/
def span_size (reg : Reg) (bits : Nat) : Nat :=
  (bits + reg.shift.getD 0 + 7) / 8

/-- The payload-length guard of `load_int`: decoding proceeds only when
the addressed span fits inside the payload. -/
def span_fits (reg : Reg) (bits : Nat) (data : List Nat) : Prop :=
  ¬ ((span_size reg bits : Int) > (data.length : Int) - (reg.offset : Int))

/-- The raw integer `int.from_bytes(manufacturer_data[offset:offset+size], ...)`. -/
def raw_value (reg : Reg) (bits : Nat) (data : List Nat) : Int :=
  from_bytes ((data.drop reg.offset).take (span_size reg bits))
    (reg.flags.contains .REG_FLAG_BIG_ENDIAN) (is_signed reg.type)

/-- Stage "Applying mask, if any": `value = value & reg['mask']`. -/
def mask_stage (reg : Reg) (v : Int) : Int :=
  match reg.mask with
  | some m => Int.land v m
  | none => v

/-- Stage "Applying shift and triming on bits size":
`value = (value >> shift) & ((1 << bits) - 1)`. -/
def shift_stage (reg : Reg) (bits : Nat) (v : Int) : Int :=
  match reg.shift with
  | some s => Int.land (Int.shiftRight v s) ((2 ^ bits : Int) - 1)
  | none => v

/-- The decoded integer right before the "Post actions" of `load_int`:
raw read, then mask, then shift+trim. -/
def int_stage (reg : Reg) (bits : Nat) (data : List Nat) : Int :=
  shift_stage reg bits (mask_stage reg (raw_value reg bits data))

/-- Post action `value = value / scale` (skipped when `scale` is absent
or falsy). -/
def scale_stage (reg : Reg) (q : ℚ) : ℚ :=
  match reg.scale with
  | some s => if s = 0 then q else q / s
  | none => q

/-- Post action `value = value + bias` (skipped when `bias` is absent or
falsy). -/
def bias_stage (reg : Reg) (q : ℚ) : ℚ :=
  match reg.bias with
  | some b => if b = 0 then q else q + b
  | none => q

/-- Post action `value = xlate(value)`. -/
def xlate_stage (reg : Reg) (q : ℚ) : ℚ :=
  match reg.xlate with
  | some x => applyXlate x q
  | none => q

/-- All "Post actions" except the invalidate check: scale, then bias,
then xlate, applied to the integer stage result. -/
def post_stage (reg : Reg) (v : Int) : ℚ :=
  xlate_stage reg (bias_stage reg (scale_stage reg (v : ℚ)))

/-- The final invalidate check of `load_int`. -/
def invalidate_stage (reg : Reg) (q : ℚ) : Option ℚ :=
  if RegFlag.REG_FLAG_INVALID ∈ reg.flags ∧ reg.inval = some q then none
  else some q

/-- A variant of `load_int` that applies the shift+trim stage BEFORE the
mask stage (the hypothetical swapped order the specification rules out);
everything else is identical. -/
def load_int_shift_before_mask (reg : Reg) (data : List Nat) : Option ℚ :=
  match (match reg.bits with
         | some b => some b
         | none => default_bits reg.type) with
  | none => none
  | some bits =>
    let size := (bits + reg.shift.getD 0 + 7) / 8
    if (size : Int) > (data.length : Int) - (reg.offset : Int) then none
    else
      let value : Int := from_bytes ((data.drop reg.offset).take size)
        (reg.flags.contains .REG_FLAG_BIG_ENDIAN) (is_signed reg.type)
      let value : Int := match reg.shift with
        | some s => Int.land (Int.shiftRight value s) ((2 ^ bits : Int) - 1)
        | none => value
      let value : Int := match reg.mask with
        | some m => Int.land value m
        | none => value
      let value : ℚ := (value : ℚ)
      let value : ℚ := match reg.scale with
        | some s => if s = 0 then value else value / s
        | none => value
      let value : ℚ := match reg.bias with
        | some b => if b = 0 then value else value + b
        | none => value
      let value : ℚ := match reg.xlate with
        | some x => applyXlate x value
        | none => value
      if RegFlag.REG_FLAG_INVALID ∈ reg.flags ∧ reg.inval = some value then none
      else some value

/-- A UTF-8 continuation byte (`0x80..0xBF`). -/
def utf8_cont (b : Nat) : Bool :=
  decide (0x80 ≤ b) && decide (b < 0xC0)

/-- Strict UTF-8 decoding of a byte list into the list of decoded code
points, or `none` when the bytes are not valid UTF-8.  This models
Python's `bytes.decode(encoding='utf-8')` (strict errors): it rejects
stray continuation bytes, truncated sequences, overlong encodings
(including the C0/C1 lead bytes), surrogate code points (lead byte 0xED
with a second byte ≥ 0xA0) and code points above U+10FFFF (lead bytes
0xF5..0xFF and 0xF4 with a second byte ≥ 0x90). -/
def utf8_decode : List Nat → Option (List Nat)
  | [] => some []
  | b :: rest =>
    if b < 0x80 then (utf8_decode rest).map (fun cps => b :: cps)
    else if b < 0xC2 then none
    else if b < 0xE0 then
      match rest with
      | c1 :: rest1 =>
        if utf8_cont c1 then
          (utf8_decode rest1).map (fun cps => ((b - 0xC0) * 0x40 + (c1 - 0x80)) :: cps)
        else none
      | [] => none
    else if b < 0xF0 then
      match rest with
      | c1 :: c2 :: rest2 =>
        if utf8_cont c1 && utf8_cont c2
            && !(decide (b = 0xE0) && decide (c1 < 0xA0))
            && !(decide (b = 0xED) && decide (0xA0 ≤ c1)) then
          (utf8_decode rest2).map
            (fun cps => ((b - 0xE0) * 0x1000 + (c1 - 0x80) * 0x40 + (c2 - 0x80)) :: cps)
        else none
      | _ => none
    else if b < 0xF5 then
      match rest with
      | c1 :: c2 :: c3 :: rest3 =>
        if utf8_cont c1 && utf8_cont c2 && utf8_cont c3
            && !(decide (b = 0xF0) && decide (c1 < 0x90))
            && !(decide (b = 0xF4) && decide (0x90 ≤ c1)) then
          (utf8_decode rest3).map
            (fun cps => ((b - 0xF0) * 0x40000 + (c1 - 0x80) * 0x1000
              + (c2 - 0x80) * 0x40 + (c3 - 0x80)) :: cps)
        else none
      | _ => none
    else none

/-- `BleDevice.load_str(reg, manufacturer_data)`.  The source reads
`reg['bits']` by direct indexing (a missing key would raise `KeyError`),
computes `size = (bits + 7) >> 3`, returns `None` when the span does not
fit (truncated payload), and otherwise calls
`manufacturer_data[offset:offset+size].decode(encoding='utf-8')` with NO
exception handler: invalid UTF-8 raises `UnicodeDecodeError` out of
`load_str`.  Decoded Python strings are represented as their code-point
lists. -/
def load_str (reg : Reg) (data : List Nat) : Except String (Option (List Nat)) :=
  match reg.bits with
  | none => .error "KeyError"
  | some bits =>
    let size := (bits + 7) / 8
    if (size : Int) > (data.length : Int) - (reg.offset : Int) then .ok none
    else
      match utf8_decode ((data.drop reg.offset).take size) with
      | some cps => .ok (some cps)
      | none => .error "UnicodeDecodeError"

/-- A decoded Python value as stored in a role's value map: a number, a
`bool(...)` coercion result, or a string (as code points). -/
inductive Value
  | num (q : ℚ)
  | bool (b : Bool)
  | str (cps : List Nat)
deriving DecidableEq

/-- Python truthiness of an optional number: `bool(None)` is `False` and
`bool(x)` for a number is `x != 0`. -/
def py_truthy : Option ℚ → Bool
  | none => false
  | some q => decide (q ≠ 0)

/-- CPython dict assignment `d[k] = v` on an insertion-ordered
association list: an existing key keeps its position and gets the new
value, a new key is appended at the end. -/
def dict_set {κ β : Type} [DecidableEq κ] : List (κ × β) → κ → β → List (κ × β)
  | [], k, v => [(k, v)]
  | (k', v') :: rest, k, v =>
    if k' = k then (k, v) :: rest else (k', v') :: dict_set rest k v

/-- One role's value map (`values[role]` in
`_parse_manufacturer_data`). -/
abbrev RoleMap := List (String × Value)

/-- The whole `values` dict: role key (possibly the `None` role) to that
role's value map. -/
abbrev Values := List (Option String × RoleMap)

/-- `values[role][reg['name']] = value`: writing through a role key that
is NOT present in `values` raises `KeyError` (modelled as `none`). -/
def set_role_value : Values → Option String → String → Value → Option Values
  | [], _, _, _ => none
  | (r, m) :: rest, role, nm, v =>
    if r = role then some ((r, dict_set m nm v) :: rest)
    else (set_role_value rest role nm v).map (fun vs => (r, m) :: vs)

/-- The fan-out loop `for role in roles: values[role][reg['name']] = value`. -/
def fan_out : Values → List (Option String) → String → Value → Option Values
  | vals, [], _, _ => some vals
  | vals, r :: rs, nm, v =>
    match set_role_value vals r nm v with
    | some vals' => fan_out vals' rs nm v
    | none => none

/-- `values = {}; for role in self.info['roles']: values[role] = {}`. -/
def init_values (roles : List (Option String)) : Values :=
  roles.foldl (fun vs r => dict_set vs r []) []

/-- The `match reg['type']` block of `_parse_manufacturer_data`:
Boolean regs store `bool(load_int(...))` (note `bool(None) = False`),
the eight numeric types store `load_int(...)`, String regs store
`load_str(...)` (which can raise). -/
def reg_value (reg : Reg) (data : List Nat) : Except String (Option Value) :=
  match reg.type with
  | .Boolean => .ok (some (.bool (py_truthy (load_int reg data))))
  | .String =>
    match load_str reg data with
    | .ok s => .ok (s.map .str)
    | .error e => .error e
  | _ => .ok ((load_int reg data).map .num)

/-- The register loop of `_parse_manufacturer_data`: skip `None` values;
skip regs whose non-empty `roles` list contains the ignore sentinel
`None` (`if roles and None in roles: continue`); regs without a `roles`
key fan out to every declared role; exceptions (`KeyError` from the
fan-out, `UnicodeDecodeError`/`KeyError` from `load_str`) propagate. -/
def parse_regs (roles : List (Option String)) (data : List Nat) :
    Values → List Reg → Except String Values
  | vals, [] => .ok vals
  | vals, reg :: rest =>
    match reg_value reg data with
    | .error e => .error e
    | .ok none => parse_regs roles data vals rest
    | .ok (some v) =>
      if (match reg.roles with
          | some l => decide (l ≠ []) && l.contains none
          | none => false) then
        parse_regs roles data vals rest
      else
        match fan_out vals (match reg.roles with | none => roles | some l => l)
            reg.name v with
        | some vals' => parse_regs roles data vals' rest
        | none => .error "KeyError"

/-- `BleDevice._parse_manufacturer_data(manufacturer_data)`, given the
device's `info['roles']` and `info['regs']`. -/
def parse_manufacturer_data (roles : List (Option String)) (regs : List Reg)
    (data : List Nat) : Except String Values :=
  parse_regs roles data (init_values roles) regs

/-- The flag-probe reg `_compute_regs` builds for each flag bit:
`{'name': 'Flag', 'type': Boolean, 'offset': 1, 'shift': sh, 'bits': 1}`. -/
def telt_flag (sh : Nat) : Reg :=
  { name := "Flag", type := .Boolean, offset := 1, shift := some sh, bits := some 1 }

/-- Fixed header reg `Version` (ignored via the `[None]` roles sentinel). -/
def version_reg : Reg :=
  { name := "Version", type := .Byte, offset := 0, roles := some [none] }

/-- Fixed header reg `EyeFlags` (ignored via the `[None]` roles sentinel). -/
def eye_flags_reg : Reg :=
  { name := "EyeFlags", type := .Byte, offset := 1, roles := some [none] }

/-- Fixed header reg `LowBattery`: bit 6 of the flag byte. -/
def low_battery_reg : Reg :=
  { name := "LowBattery", type := .Boolean, offset := 1, shift := some 6, bits := some 1 }

/-- `InputState` (magnet presence): bit 3 of the flag byte. -/
def input_state_reg : Reg :=
  { name := "InputState", type := .Boolean, offset := 1, shift := some 3, bits := some 1,
    roles := some [some "digitalinput"] }

/-- `Temperature`: big-endian Int16 at the running offset, scale 100. -/
def temperature_reg (off : Nat) : Reg :=
  { name := "Temperature", type := .Int16, offset := off, scale := some 100,
    flags := [.REG_FLAG_BIG_ENDIAN], roles := some [some "temperature"] }

/-- `Humidity`: byte at the running offset. -/
def humidity_reg (off : Nat) : Reg :=
  { name := "Humidity", type := .Byte, offset := off,
    flags := [.REG_FLAG_BIG_ENDIAN], roles := some [some "temperature"] }

/-- `MovementState`: bit 7 of the 16-bit movement word. -/
def movement_state_reg (off : Nat) : Reg :=
  { name := "MovementState", type := .Boolean, offset := off, shift := some 7,
    bits := some 1, roles := some [some "movement"] }

/-- `MovementCount`: big-endian UInt16 masked with 0x7FFF. -/
def movement_count_reg (off : Nat) : Reg :=
  { name := "MovementCount", type := .UInt16, offset := off, mask := some 0x7FFF,
    flags := [.REG_FLAG_BIG_ENDIAN], roles := some [some "movement"] }

/-- `Pitch`: byte at the running offset with the byte-to-signed xlate. -/
def pitch_reg (off : Nat) : Reg :=
  { name := "Pitch", type := .Byte, offset := off, xlate := some .byteToSignedInt,
    roles := some [some "movement"] }

/-- `Roll`: big-endian Int16 at the hard-coded offset 8 (the source uses
the literal `8` here, not the running offset). -/
def roll_reg : Reg :=
  { name := "Roll", type := .Int16, offset := 8,
    flags := [.REG_FLAG_BIG_ENDIAN], roles := some [some "movement"] }

/-- `BatteryVoltage`: byte with `scale = 1/10` and `bias = 2000`.  The
Python literal `1/10` is a float; its intended exact value `1/10` is
used here. -/
def battery_voltage_reg (off : Nat) : Reg :=
  { name := "BatteryVoltage", type := .Byte, offset := off,
    scale := some ((1 : ℚ)/10), bias := some 2000 }

/-- `list(set(roles))`: deduplication of the accumulated role list.  The
order CPython produces is unspecified; `List.dedup` (keep first
occurrences) is used as a canonical representative, which is
order-identical for the lists of at most one distinct element the claims
below evaluate. -/
def py_dedup (roles : List (Option String)) : List (Option String) :=
  roles.dedup

/-- `BleDeviceTeltonika._compute_regs(manufacturer_data)`: the fixed
header regs, then each flag-guarded section appended in source order
with the running byte cursor `offset`, and the deduplicated role list.
Flag bits probed: 2 = magnet, 0 = temperature, 1 = humidity,
4 = movement, 5 = pitch/roll angle, 7 = battery voltage. -/
def teltonika_compute_regs (data : List Nat) : List Reg × List (Option String) :=
  let regs : List Reg := [version_reg, eye_flags_reg, low_battery_reg]
  let roles : List (Option String) := []
  let offset : Nat := 2
  let flag_mag := py_truthy (load_int (telt_flag 2) data)
  let regs := if flag_mag then regs ++ [input_state_reg] else regs
  let roles := if flag_mag then roles ++ [some "digitalinput"] else roles
  let flag_temp := py_truthy (load_int (telt_flag 0) data)
  let regs := if flag_temp then regs ++ [temperature_reg offset] else regs
  let roles := if flag_temp then roles ++ [some "temperature"] else roles
  let offset := if flag_temp then offset + 2 else offset
  let flag_humid := py_truthy (load_int (telt_flag 1) data)
  let regs := if flag_humid then regs ++ [humidity_reg offset] else regs
  let roles := if flag_humid then roles ++ [some "temperature"] else roles
  let offset := if flag_humid then offset + 1 else offset
  let flag_mov := py_truthy (load_int (telt_flag 4) data)
  let regs := if flag_mov then regs ++ [movement_state_reg offset, movement_count_reg offset]
              else regs
  let roles := if flag_mov then roles ++ [some "movement"] else roles
  let offset := if flag_mov then offset + 2 else offset
  let flag_angle := py_truthy (load_int (telt_flag 5) data)
  let regs := if flag_angle then regs ++ [pitch_reg offset, roll_reg] else regs
  let roles := if flag_angle then roles ++ [some "movement"] else roles
  let offset := if flag_angle then offset + 1 + 2 else offset
  let flag_bat := py_truthy (load_int (telt_flag 7) data)
  let regs := if flag_bat then regs ++ [battery_voltage_reg offset] else regs
  (regs, py_dedup roles)

/-- The per-device state the scan callback keeps in `_known_mac`: the
`info['regs']` / `info['roles']` a Teltonika device computed when it was
configured. -/
structure TeltState where
  regs : List Reg
  roles : List (Option String)
deriving DecidableEq

/-- `BleDeviceTeltonika.configure(manufacturer_data)`: computes the
dynamic register table and role list from the payload and stores them in
the device's `info`. -/
def teltonika_configure (data : List Nat) : TeltState :=
  ⟨(teltonika_compute_regs data).1, (teltonika_compute_regs data).2⟩

/-- One advertisement in `DbusBleSensors._scan_callback`: a device not
yet in `_known_mac` is configured from this payload; a known device is
reused as-is.  `handle_data` then decodes with whatever `info['regs']`
the state holds — it never recomputes the table. -/
def scan_step : Option TeltState → List Nat → TeltState
  | none, data => teltonika_configure data
  | some st, _ => st

/-- For a sequence of advertisements of one Teltonika device, the
register table `handle_data` uses for each payload in turn. -/
def tables_used : Option TeltState → List (List Nat) → List (List Reg)
  | _, [] => []
  | st?, d :: ds =>
    let st := scan_step st? d
    st.regs :: tables_used (some st) ds

/-- A configuration dict entry as the validator distinguishes them:
key absent, key present with value `None`, or key present with a value
of the modelled type.  (`_check_configuration` treats the first two
separately: "is missing" vs "can not be None".) -/
inductive InfoField (α : Type)
  | missing
  | null
  | val (a : α)
deriving DecidableEq

/-- The alarm `update` callbacks occurring in the sources (only
`BleDeviceTeltonika._get_low_battery_state`); validation only tests the
key's presence. -/
inductive AlarmUpd
  | low_battery_state
deriving DecidableEq

/-- One entry of `info['alarms']`: the validator checks only that the
`name` and `update` keys are present (`none` = key absent). -/
structure Alarm where
  name : Option String := none
  update : Option AlarmUpd := none
deriving DecidableEq

/-- The `props` dict of a setting: the validator checks only the
presence of the `def`/`min`/`max` keys. -/
structure SettingProps where
  has_def : Bool
  has_min : Bool
  has_max : Bool
deriving DecidableEq

/-- One entry of `info['settings']`: the validator checks `name` and
`props` presence, then the three props keys. -/
structure Setting where
  name : Option String := none
  props : Option SettingProps := none
deriving DecidableEq

/-- The keys of `BleDevice.info` that `_check_configuration` inspects.
`device_name` models the `DeviceName` key and `dev_pref` the device
prefix key.  Keys whose values have a fixed type in this model
(`manufacturer_id` an integer, `roles`/`regs`/`settings`/`alarms`
lists) make the source's `isinstance` checks vacuously true; the
missing/`None`/empty distinctions the claims are about are all
representable. -/
structure DeviceInfo where
  manufacturer_id : InfoField Int
  product_id : InfoField Int
  product_name : InfoField String
  device_name : InfoField String
  dev_pref : InfoField String
  roles : InfoField (List (Option String))
  regs : InfoField (List Reg)
  settings : InfoField (List Setting)
  alarms : InfoField (List Alarm)
deriving DecidableEq

/-- The two checks the first loop of `_check_configuration` makes per
key: `key not in info` → "is missing"; `info[key] is None` → "can not be
None". -/
def get_field {α : Type} (key : String) (f : InfoField α) : Except String α :=
  match f with
  | .missing => .error (String.append "configuration is missing: " key)
  | .null => .error (String.append "configuration can not be None: " key)
  | .val a => .ok a

/-- Fail-fast iteration of a per-element check over a list (the `for`
loops of the validators: the first `raise` wins). -/
def check_all {α : Type} (f : α → Except String Unit) : List α → Except String Unit
  | [] => .ok ()
  | a :: rest =>
    match f a with
    | .ok _ => check_all f rest
    | .error e => .error e

/-- `if role is not None and role not in BleRole._ROLE_INSTANCE: raise`.
The registry parameter stands for the keys of `BleRole._ROLE_INSTANCE`,
the process-wide role catalog filled at startup. -/
def check_role (registry : List String) (role : Option String) : Except String Unit :=
  match role with
  | none => .ok ()
  | some r => if r ∈ registry then .ok () else .error (String.append "Unknown role " r)

/-- The per-reg body of the `for index, reg in enumerate(...)` loop.  In
this typed model a reg always has `name`, `type` and `offset` and its
`type` is allowed, so those checks pass; what remains is the String
`bits` requirement (present, an integer, a multiple of 8) and the
per-reg role references. -/
def check_reg (registry : List String) (reg : Reg) : Except String Unit :=
  match (if reg.type = .String then
           match reg.bits with
           | none => Except.error (String.append "missing bits in reg " reg.name)
           | some b =>
             if b % 8 ≠ 0 then
               Except.error (String.append "bits must be a multiple of 8 in reg " reg.name)
             else Except.ok ()
         else Except.ok ()) with
  | .error e => .error e
  | .ok _ =>
    match reg.roles with
    | none => .ok ()
    | some l => check_all (check_role registry) l

/-- The per-setting body shared by both validators: `name` present,
`props` present, then `def`/`min`/`max` present in `props`. -/
def check_setting (s : Setting) : Except String Unit :=
  match s.name with
  | none => .error "Missing name in setting"
  | some nm =>
    match s.props with
    | none => .error (String.append "Missing props in setting " nm)
    | some p =>
      if !p.has_def then .error (String.append "Missing key def in setting " nm)
      else if !p.has_min then .error (String.append "Missing key min in setting " nm)
      else if !p.has_max then .error (String.append "Missing key max in setting " nm)
      else .ok ()

/-- The per-alarm body shared by both validators: `'name' in alarm`
first, then `for key in ['name', 'update']` (so a present `name` with a
missing `update` raises "Missing key 'update'"). -/
def check_alarm (a : Alarm) : Except String Unit :=
  match a.name with
  | none => .error "Missing name in alarm"
  | some nm =>
    match a.update with
    | none => .error (String.append "Missing key update in alarm " nm)
    | some _ => .ok ()

/-- `BleDevice._check_configuration(self)`, with the checks in source
order: the nine mandatory keys (missing/None), the integer and list
`isinstance` checks (vacuous in this typed model), the non-emptiness of
`roles` then `regs`, the device-level role references, then the
per-reg, per-setting and per-alarm loops. -/
def check_configuration (registry : List String) (c : DeviceInfo) : Except String Unit := do
  let _ ← get_field "manufacturer_id" c.manufacturer_id
  let _ ← get_field "product_id" c.product_id
  let _ ← get_field "product_name" c.product_name
  let _ ← get_field "DeviceName" c.device_name
  let _ ← get_field "dev_pref" c.dev_pref
  let roles ← get_field "roles" c.roles
  let regs ← get_field "regs" c.regs
  let settings ← get_field "settings" c.settings
  let alarms ← get_field "alarms" c.alarms
  if roles.length < 1 then
    Except.error "Configuration roles must have at least one element"
  else if regs.length < 1 then
    Except.error "Configuration regs must have at least one element"
  else do
    check_all (check_role registry) roles
    check_all (check_reg registry) regs
    check_all check_setting settings
    check_all check_alarm alarms

/-- The keys of `BleRole.info` that `BleRole.check_configuration`
inspects. -/
structure RoleInfo where
  name : InfoField String
  dev_instance : InfoField Int
  settings : InfoField (List Setting)
  alarms : InfoField (List Alarm)
deriving DecidableEq

/-- `BleRole.check_configuration(self)`: the four mandatory keys
(missing/None), the integer and list `isinstance` checks (vacuous in
this typed model), then the per-setting and per-alarm loops. -/
def role_check_configuration (r : RoleInfo) : Except String Unit := do
  let _ ← get_field "name" r.name
  let _ ← get_field "dev_instance" r.dev_instance
  let settings ← get_field "settings" r.settings
  let alarms ← get_field "alarms" r.alarms
  check_all check_setting settings
  check_all check_alarm alarms

/-- `Int.land` of anything with a natural-number mask is nonnegative:
both the `ofNat`/`ofNat` and the `negSucc`/`ofNat` cases of `Int.land`
produce an `ofNat`. -/
theorem int_land_natCast_nonneg (v : Int) (m : Nat) : 0 ≤ Int.land v (m : Int) := by
  cases v with
  | ofNat a => exact Int.ofNat_nonneg _
  | negSucc a => exact Int.ofNat_nonneg _

/-- `Nat.ldiff n m` only clears bits of `n`, so it is at most `n`. -/
theorem nat_ldiff_le (n m : Nat) : Nat.ldiff n m ≤ n := by
  refine Nat.le_of_testBit fun i hi => ?_
  rw [Nat.testBit_ldiff] at hi
  exact ((Bool.and_eq_true _ _).mp hi).1

/-- `Int.land` with a natural-number mask is bounded by the mask. -/
theorem int_land_natCast_le (v : Int) (m : Nat) : Int.land v (m : Int) ≤ (m : Int) := by
  cases v with
  | ofNat a =>
    have : Int.land (Int.ofNat a) (m : Int) = Int.ofNat (Nat.land a m) := rfl
    rw [this]
    exact Int.ofNat_le.mpr Nat.and_le_right
  | negSucc a =>
    have : Int.land (Int.negSucc a) (m : Int) = Int.ofNat (Nat.ldiff m a) := rfl
    rw [this]
    exact Int.ofNat_le.mpr (nat_ldiff_le m a)

/-- When the bit width resolves and the span fits, `load_int` is exactly
the staged pipeline: raw read → mask → shift+trim → scale → bias → xlate
→ invalidate check. -/
theorem load_int_eq_pipeline (reg : Reg) (data : List Nat) (bits : Nat)
    (hbits : resolve_bits reg = some bits)
    (hfit : ¬ ((span_size reg bits : Int) > (data.length : Int) - (reg.offset : Int))) :
    load_int reg data = invalidate_stage reg (post_stage reg (int_stage reg bits data)) := by
  have hres : (match reg.bits with
               | some b => some b
               | none => default_bits reg.type) = some bits := hbits
  unfold load_int
  simp only [hres]
  unfold span_size at hfit
  rw [if_neg hfit]
  rfl

/-- C1: for every numeric register decode (resolved bit width, span in
range) the transformations apply in exactly the fixed order mask (AND) →
shift with trim to the bit width → scale (division) → bias (addition) →
xlate → invalidate check; and there is a spec with both mask and shift
and a raw value on which this order gives a different result than
shift-before-mask. -/
theorem c1_transform_order :
    (∀ (reg : Reg) (data : List Nat) (bits : Nat),
        resolve_bits reg = some bits →
        ¬ ((span_size reg bits : Int) > (data.length : Int) - (reg.offset : Int)) →
        load_int reg data =
          invalidate_stage reg (xlate_stage reg (bias_stage reg (scale_stage reg
            ((shift_stage reg bits (mask_stage reg (raw_value reg bits data)) : Int) : ℚ)))))
  ∧ (∃ (reg : Reg) (data : List Nat),
        load_int reg data ≠ load_int_shift_before_mask reg data) := by
  constructor
  · intro reg data bits hbits hfit
    exact load_int_eq_pipeline reg data bits hbits hfit
  · exact ⟨{ name := "x", type := .Byte, offset := 0, bits := some 4,
             mask := some 0x0F, shift := some 2 }, [0xFF], by decide⟩

/-- Witness for C1 at a concrete reg and payload. -/
theorem c1_transform_order_witness :
    load_int { name := "x", type := .Byte, offset := 0, bits := some 4,
               mask := some 0x0F, shift := some 2 } [0xFF]
      = invalidate_stage { name := "x", type := .Byte, offset := 0, bits := some 4,
                           mask := some 0x0F, shift := some 2 }
          (xlate_stage { name := "x", type := .Byte, offset := 0, bits := some 4,
                         mask := some 0x0F, shift := some 2 }
            (bias_stage { name := "x", type := .Byte, offset := 0, bits := some 4,
                          mask := some 0x0F, shift := some 2 }
              (scale_stage { name := "x", type := .Byte, offset := 0, bits := some 4,
                             mask := some 0x0F, shift := some 2 }
                ((shift_stage { name := "x", type := .Byte, offset := 0, bits := some 4,
                                mask := some 0x0F, shift := some 2 } 4
                  (mask_stage { name := "x", type := .Byte, offset := 0, bits := some 4,
                                mask := some 0x0F, shift := some 2 }
                    (raw_value { name := "x", type := .Byte, offset := 0, bits := some 4,
                                 mask := some 0x0F, shift := some 2 } 4 [0xFF])) : Int) : ℚ))))
    :=
  c1_transform_order.1 _ [0xFF] 4 rfl (by decide)

/-- C2: a reg with a nonzero `scale`, a `bias` and no
mask/shift/xlate/invalidate decodes the raw integer `v` of its span to
exactly `v / scale + bias`, by true (rational) division. -/
theorem c2_scale_bias_exact (reg : Reg) (data : List Nat) (s b : ℚ) (bits : Nat)
    (hscale : reg.scale = some s) (hs : s ≠ 0) (hbias : reg.bias = some b)
    (hmask : reg.mask = none) (hshift : reg.shift = none) (hx : reg.xlate = none)
    (hflag : RegFlag.REG_FLAG_INVALID ∉ reg.flags)
    (hbits : resolve_bits reg = some bits)
    (hfit : ¬ ((span_size reg bits : Int) > (data.length : Int) - (reg.offset : Int))) :
    load_int reg data = some ((raw_value reg bits data : ℚ) / s + b) := by
  rw [load_int_eq_pipeline reg data bits hbits hfit]
  unfold invalidate_stage post_stage xlate_stage bias_stage scale_stage int_stage
    shift_stage mask_stage
  rw [hscale, hbias, hmask, hshift, hx]
  by_cases hb : b = 0
  · simp [hflag, if_neg hs, hb]
  · simp [hflag, if_neg hs, if_neg hb]

/-- Witness for C2: scale 2, bias 3 on raw byte 10 gives 10/2 + 3 = 8. -/
theorem c2_scale_bias_exact_witness :
    load_int { name := "x", type := .Byte, offset := 0, scale := some 2, bias := some 3 }
      [10] = some 8 := by
  have h := c2_scale_bias_exact
    { name := "x", type := .Byte, offset := 0, scale := some 2, bias := some 3 }
    [10] 2 3 8 rfl (by norm_num) rfl rfl rfl rfl (by decide) rfl (by decide)
  have hraw : raw_value
      { name := "x", type := .Byte, offset := 0, scale := some 2, bias := some 3 }
      8 [10] = 10 := by decide
  rw [h, hraw]
  norm_num

/-- C6: with both `shift` and `bits` present and the span in range, the
decoded integer right before scale/bias — the `int_stage` the rest of
`load_int`'s post actions are applied to — lies in `[0, 2^bits - 1]`,
whatever the signedness, mask and endianness. -/
theorem c6_shift_trim_range (reg : Reg) (data : List Nat) (s bits : Nat)
    (hs : reg.shift = some s) (hb : reg.bits = some bits)
    (hfit : ¬ ((span_size reg bits : Int) > (data.length : Int) - (reg.offset : Int))) :
    0 ≤ int_stage reg bits data ∧ int_stage reg bits data ≤ 2 ^ bits - 1
      ∧ load_int reg data
          = invalidate_stage reg (post_stage reg (int_stage reg bits data)) := by
  have hmask : ((2 : Int) ^ bits - 1) = ((2 ^ bits - 1 : Nat) : Int) := by
    have h1 : (1 : Nat) ≤ 2 ^ bits := Nat.one_le_two_pow
    push_cast [h1]
    ring
  have hres : resolve_bits reg = some bits := by
    unfold resolve_bits
    rw [hb]
  refine ⟨?_, ?_, load_int_eq_pipeline reg data bits hres hfit⟩
  · unfold int_stage shift_stage
    rw [hs, hmask]
    exact int_land_natCast_nonneg _ _
  · unfold int_stage shift_stage
    rw [hs]
    have := int_land_natCast_le
      (Int.shiftRight (mask_stage reg (raw_value reg bits data)) s) (2 ^ bits - 1)
    rw [← hmask] at this
    exact this

/-- Witness for C6 at a signed reg and a negative raw value. -/
theorem c6_shift_trim_range_witness :
    0 ≤ int_stage { name := "x", type := .Int16, offset := 0, bits := some 4,
                    shift := some 2 } 4 [0xAB, 0xCD]
  ∧ int_stage { name := "x", type := .Int16, offset := 0, bits := some 4,
                shift := some 2 } 4 [0xAB, 0xCD] ≤ 2 ^ 4 - 1
  ∧ load_int { name := "x", type := .Int16, offset := 0, bits := some 4,
               shift := some 2 } [0xAB, 0xCD]
      = invalidate_stage { name := "x", type := .Int16, offset := 0, bits := some 4,
                           shift := some 2 }
          (post_stage { name := "x", type := .Int16, offset := 0, bits := some 4,
                        shift := some 2 }
            (int_stage { name := "x", type := .Int16, offset := 0, bits := some 4,
                         shift := some 2 } 4 [0xAB, 0xCD])) :=
  c6_shift_trim_range _ [0xAB, 0xCD] 2 4 rfl rfl (by decide)

/-- The concrete invalidate reg of the claim: `flags={INVALID}`,
`inval=255`, no other transformation. -/
def inval_reg : Reg :=
  { name := "V", type := .Byte, offset := 0, flags := [.REG_FLAG_INVALID],
    inval := some 255 }

/-- C7: with the invalidate flag and `inval=255` and no other
transformations, byte `0xFF` decodes to absent and byte `0x01` to `1`;
and in general the invalidate comparison is made against the value after
mask, shift, scale, bias and xlate (`post_stage` of `int_stage`). -/
theorem c7_invalidate_after_transforms :
    load_int inval_reg [0xFF] = none
  ∧ load_int inval_reg [0x01] = some 1
  ∧ (∀ (reg : Reg) (data : List Nat) (bits : Nat),
      RegFlag.REG_FLAG_INVALID ∈ reg.flags →
      resolve_bits reg = some bits →
      ¬ ((span_size reg bits : Int) > (data.length : Int) - (reg.offset : Int)) →
      load_int reg data =
        (if reg.inval = some (post_stage reg (int_stage reg bits data)) then none
         else some (post_stage reg (int_stage reg bits data)))) := by
  refine ⟨by decide, by decide, ?_⟩
  intro reg data bits hflag hbits hfit
  rw [load_int_eq_pipeline reg data bits hbits hfit]
  unfold invalidate_stage
  simp [hflag]

/-- Witness for C7's quantified part at a concrete reg and payload. -/
theorem c7_invalidate_after_transforms_witness :
    load_int inval_reg [0x02] =
      (if inval_reg.inval = some (post_stage inval_reg (int_stage inval_reg 8 [0x02]))
       then none
       else some (post_stage inval_reg (int_stage inval_reg 8 [0x02]))) :=
  c7_invalidate_after_transforms.2.2 inval_reg [0x02] 8 (by decide) rfl (by decide)

/-- C10: a Double reg with no explicit `bits` decodes to absent on every
payload (no default bit width case exists for Double in `load_int`); a
Double reg with explicit `bits` decodes exactly like an unsigned integer
reg with the same fields (span read as an integer with optional
mask/shift/scale/bias, never as an IEEE-754 encoding). -/
theorem c10_double_reg :
    (∀ (nm : String) (off : Nat) (mk : Option Int) (sh : Option Nat) (sc bi : Option ℚ)
        (fl : List RegFlag) (xl : Option Xlate) (iv : Option ℚ)
        (rl : Option (List (Option String))) (data : List Nat),
        load_int ⟨nm, .Double, off, none, mk, sh, sc, bi, fl, xl, iv, rl⟩ data = none)
  ∧ (∀ (nm : String) (off b : Nat) (mk : Option Int) (sh : Option Nat) (sc bi : Option ℚ)
        (fl : List RegFlag) (xl : Option Xlate) (iv : Option ℚ)
        (rl : Option (List (Option String))) (data : List Nat),
        load_int ⟨nm, .Double, off, some b, mk, sh, sc, bi, fl, xl, iv, rl⟩ data
          = load_int ⟨nm, .UInt16, off, some b, mk, sh, sc, bi, fl, xl, iv, rl⟩ data) :=
  ⟨fun _ _ _ _ _ _ _ _ _ _ _ => rfl, fun _ _ _ _ _ _ _ _ _ _ _ _ => rfl⟩

/-- C3 (code evaluation at the failing inputs): a Boolean reg whose span
exceeds the payload is NOT absent — `bool(load_int(...)) = bool(None) =
False` is stored in the role map; and a String reg over invalid UTF-8
raises `UnicodeDecodeError` out of `load_str` (no handler exists), which
propagates out of `_parse_manufacturer_data`.  A truncated String reg,
by contrast, does yield absent. -/
theorem c3_truncation_utf8_eval :
    parse_manufacturer_data [some "temperature"]
      [{ name := "B", type := .Boolean, offset := 0 }] []
      = .ok [(some "temperature", [("B", Value.bool false)])]
  ∧ load_str { name := "S", type := .String, offset := 0, bits := some 8 } [0xFF]
      = .error "UnicodeDecodeError"
  ∧ parse_manufacturer_data [some "temperature"]
      [{ name := "S", type := .String, offset := 0, bits := some 8 }] [0xFF]
      = .error "UnicodeDecodeError"
  ∧ load_str { name := "S", type := .String, offset := 0, bits := some 16 } [0x41]
      = .ok none :=
  ⟨by decide, by decide, by decide, by decide⟩

/-- Evaluation of one flag probe of `_compute_regs` on a payload
`b0 :: f :: rest`: the probe reads the single byte at offset 1 and
extracts bit `sh`. -/
theorem telt_flag_eval (sh : Nat) (hsh : (1 + sh + 7) / 8 = 1) (b0 f : Nat)
    (rest : List Nat) :
    load_int (telt_flag sh) (b0 :: f :: rest)
      = some ((Nat.land (Nat.shiftRight f sh) 1 : Nat) : ℚ) := by
  unfold load_int telt_flag
  simp only [Option.getD_some]
  rw [hsh]
  have hlen : ¬ ((((1 : Nat)) : Int) > (((b0 :: f :: rest).length) : Int) - (((1 : Nat)) : Int)) := by
    simp only [List.length_cons]
    push_cast
    omega
  rw [if_neg hlen]
  have hslice : (List.take 1 (List.drop 1 (b0 :: f :: rest))) = [f] := rfl
  rw [hslice]
  have hraw : from_bytes [f] (List.contains [] RegFlag.REG_FLAG_BIG_ENDIAN)
      (is_signed FieldType.Boolean) = (f : Int) := by
    unfold from_bytes
    simp [from_bytes_le, is_signed]
  rw [hraw]
  have hval : Int.land (Int.shiftRight (f : Int) sh) ((2 : Int) ^ 1 - 1)
      = ((Nat.land (Nat.shiftRight f sh) 1 : Nat) : Int) := rfl
  rw [hval]
  push_cast
  simp

/-- C4: on any Teltonika payload whose flag byte (offset 1) is exactly
`0x01` (only the temperature bit, bit 0, set), `_compute_regs` produces
exactly the fixed header regs (Version, EyeFlags, LowBattery) plus the
Temperature reg at byte offset 2, and the computed role list is exactly
`["temperature"]`. -/
theorem c4_teltonika_temperature_only (b0 : Nat) (rest : List Nat) :
    teltonika_compute_regs (b0 :: 1 :: rest)
      = ([version_reg, eye_flags_reg, low_battery_reg, temperature_reg 2],
         [some "temperature"]) := by
  have e0 := telt_flag_eval 0 (by norm_num) b0 1 rest
  have e1 := telt_flag_eval 1 (by norm_num) b0 1 rest
  have e2 := telt_flag_eval 2 (by norm_num) b0 1 rest
  have e4 := telt_flag_eval 4 (by norm_num) b0 1 rest
  have e5 := telt_flag_eval 5 (by norm_num) b0 1 rest
  have e7 := telt_flag_eval 7 (by norm_num) b0 1 rest
  unfold teltonika_compute_regs
  rw [e2, e0, e1, e4, e5, e7]
  decide

/-- C5 counterexample: two successive advertisements with different flag
bytes (temperature-only, then humidity-only).  The register tables
actually used by `handle_data` are NOT the tables `_compute_regs` would
derive from each payload: the table from the first payload is reused for
the second. -/
theorem c5_counterexample :
    tables_used none [[0x01, 0x01, 0x00, 0x2C], [0x01, 0x02, 0x00, 0x30]]
      ≠ [(teltonika_compute_regs [0x01, 0x01, 0x00, 0x2C]).1,
         (teltonika_compute_regs [0x01, 0x02, 0x00, 0x30]).1] := by decide

/-- C5 (amended): the dynamic register table is computed once, from the
FIRST payload the device is observed with (at `configure` time), and
that same table is reused by every subsequent `handle_data` decode; the
table is never recomputed from the current payload. -/
theorem c5_table_computed_once (p : List Nat) (ps : List (List Nat)) :
    tables_used none (p :: ps)
      = List.replicate (ps.length + 1) (teltonika_configure p).regs := by
  have aux : ∀ (st : TeltState) (ds : List (List Nat)),
      tables_used (some st) ds = List.replicate ds.length st.regs := by
    intro st ds
    induction ds with
    | nil => rfl
    | cons d ds ih =>
      simp only [tables_used, scan_step, List.length_cons, List.replicate_succ, ih]
  simp only [tables_used, scan_step, List.replicate_succ, aux]

/-- Inversion of `Except` bind: a successful chain means the first step
succeeded and the continuation succeeded on its result. -/
theorem bind_ok_inv {α β : Type} {x : Except String α} {f : α → Except String β} {b : β}
    (h : (x >>= f) = .ok b) : ∃ a, x = .ok a ∧ f a = .ok b := by
  cases x with
  | ok a => exact ⟨a, rfl, h⟩
  | error e =>
    have he : (Except.error e >>= f) = (Except.error e : Except String β) := rfl
    rw [he] at h
    cases h

/-- A successful `get_field` means the key was present and non-None. -/
theorem get_field_ok_inv {α : Type} {key : String} {f : InfoField α} {a : α}
    (h : get_field key f = .ok a) : f = .val a := by
  cases f with
  | missing => cases h
  | null => cases h
  | val x =>
    injection h with h'
    rw [h']

/-- A successful fail-fast loop means every element passed its check. -/
theorem check_all_ok {α : Type} {f : α → Except String Unit} {l : List α}
    (h : check_all f l = .ok ()) : ∀ a ∈ l, f a = .ok () := by
  induction l with
  | nil => intro a ha; cases ha
  | cons x xs ih =>
    intro a ha
    unfold check_all at h
    cases hfx : f x with
    | ok u =>
      simp only [hfx] at h
      rcases List.mem_cons.mp ha with rfl | ha2
      · cases u; exact hfx
      · exact ih h a ha2
    | error e =>
      simp only [hfx] at h
      cases h

/-- A successful `check_alarm` means the alarm has both `name` and
`update`. -/
theorem check_alarm_ok_inv {a : Alarm} (h : check_alarm a = .ok ()) :
    a.name.isSome ∧ a.update.isSome := by
  unfold check_alarm at h
  cases hn : a.name with
  | none =>
    simp only [hn] at h
    cases h
  | some nm =>
    simp only [hn] at h
    cases hu : a.update with
    | none =>
      simp only [hu] at h
      cases h
    | some u => simp [hn, hu]

/-- What a successful device `_check_configuration` guarantees about the
parts the claims use: `regs` is present, non-None and non-empty, and
every alarm has `name` and `update`. -/
theorem check_configuration_ok_inv (registry : List String) (c : DeviceInfo)
    (h : check_configuration registry c = .ok ()) :
    (∃ l, c.regs = .val l ∧ l ≠ []) ∧
    (∀ l, c.alarms = .val l → ∀ a ∈ l, a.name.isSome ∧ a.update.isSome) := by
  unfold check_configuration at h
  obtain ⟨a1, h1, h⟩ := bind_ok_inv h
  obtain ⟨a2, h2, h⟩ := bind_ok_inv h
  obtain ⟨a3, h3, h⟩ := bind_ok_inv h
  obtain ⟨a4, h4, h⟩ := bind_ok_inv h
  obtain ⟨a5, h5, h⟩ := bind_ok_inv h
  obtain ⟨roles, hr, h⟩ := bind_ok_inv h
  obtain ⟨regs, hg, h⟩ := bind_ok_inv h
  obtain ⟨settings, hs, h⟩ := bind_ok_inv h
  obtain ⟨alarms, ha, h⟩ := bind_ok_inv h
  by_cases hrl : roles.length < 1
  · rw [if_pos hrl] at h; cases h
  rw [if_neg hrl] at h
  by_cases hgl : regs.length < 1
  · rw [if_pos hgl] at h; cases h
  rw [if_neg hgl] at h
  obtain ⟨u1, hc1, h⟩ := bind_ok_inv h
  obtain ⟨u2, hc2, h⟩ := bind_ok_inv h
  obtain ⟨u3, hc3, h⟩ := bind_ok_inv h
  refine ⟨⟨regs, get_field_ok_inv hg, ?_⟩, ?_⟩
  · intro hnil
    rw [hnil] at hgl
    simp at hgl
  · intro l hl a hal
    have hval := get_field_ok_inv ha
    rw [hval] at hl
    injection hl with hl'
    subst hl'
    exact check_alarm_ok_inv (check_all_ok h a hal)

/-- What a successful role `check_configuration` guarantees about its
alarms: every alarm has `name` and `update`. -/
theorem role_check_configuration_ok_inv (r : RoleInfo)
    (h : role_check_configuration r = .ok ()) :
    ∀ l, r.alarms = .val l → ∀ a ∈ l, a.name.isSome ∧ a.update.isSome := by
  unfold role_check_configuration at h
  obtain ⟨a1, h1, h⟩ := bind_ok_inv h
  obtain ⟨a2, h2, h⟩ := bind_ok_inv h
  obtain ⟨settings, hs, h⟩ := bind_ok_inv h
  obtain ⟨alarms, ha, h⟩ := bind_ok_inv h
  obtain ⟨u1, hc1, h⟩ := bind_ok_inv h
  intro l hl a hal
  have hval := get_field_ok_inv ha
  rw [hval] at hl
  injection hl with hl'
  subst hl'
  exact check_alarm_ok_inv (check_all_ok h a hal)

/-- C8: validation raises a configuration error (never returns ok) for
every DeviceConfig whose `regs` is missing, None or empty, and for every
RoleSpec or DeviceConfig containing an alarm that has a `name` but no
`update` key. -/
theorem c8_validation_rejects :
    (∀ (registry : List String) (c : DeviceInfo),
        (c.regs = .missing ∨ c.regs = .null ∨ c.regs = .val []) →
        check_configuration registry c ≠ .ok ())
  ∧ (∀ (registry : List String) (c : DeviceInfo) (l : List Alarm) (a : Alarm),
        c.alarms = .val l → a ∈ l → a.name.isSome → a.update = none →
        check_configuration registry c ≠ .ok ())
  ∧ (∀ (r : RoleInfo) (l : List Alarm) (a : Alarm),
        r.alarms = .val l → a ∈ l → a.name.isSome → a.update = none →
        role_check_configuration r ≠ .ok ()) := by
  refine ⟨?_, ?_, ?_⟩
  · intro registry c hbad h
    obtain ⟨⟨l, hval, hne⟩, _⟩ := check_configuration_ok_inv registry c h
    rcases hbad with hb | hb | hb <;> rw [hb] at hval
    · cases hval
    · cases hval
    · injection hval with h'
      exact hne h'.symm
  · intro registry c l a hl hal hname hupd h
    obtain ⟨_, halarms⟩ := check_configuration_ok_inv registry c h
    have := (halarms l hl a hal).2
    rw [hupd] at this
    cases this
  · intro r l a hl hal hname hupd h
    have := (role_check_configuration_ok_inv r h l hl a hal).2
    rw [hupd] at this
    cases this

/-- A device config with an empty `regs` list (otherwise valid). -/
def c8_info_no_regs : DeviceInfo :=
  { manufacturer_id := .val 1, product_id := .val 2, product_name := .val "p",
    device_name := .val "d", dev_pref := .val "x", roles := .val [some "tank"],
    regs := .val [], settings := .val [], alarms := .val [] }

/-- An alarm with a `name` but no `update` key. -/
def c8_alarm_no_update : Alarm :=
  { name := some "/Alarms/LowBattery" }

/-- A device config whose alarm list holds `c8_alarm_no_update`. -/
def c8_info_alarm : DeviceInfo :=
  { manufacturer_id := .val 1, product_id := .val 2, product_name := .val "p",
    device_name := .val "d", dev_pref := .val "x", roles := .val [some "tank"],
    regs := .val [{ name := "T", type := .Byte, offset := 0 }],
    settings := .val [], alarms := .val [c8_alarm_no_update] }

/-- A role config whose alarm list holds `c8_alarm_no_update`. -/
def c8_role_info : RoleInfo :=
  { name := .val "tank", dev_instance := .val 20, settings := .val [],
    alarms := .val [c8_alarm_no_update] }

/-- Witness for C8 at concrete configurations. -/
theorem c8_validation_rejects_witness :
    check_configuration ["tank"] c8_info_no_regs ≠ .ok ()
  ∧ check_configuration ["tank"] c8_info_alarm ≠ .ok ()
  ∧ role_check_configuration c8_role_info ≠ .ok () :=
  ⟨c8_validation_rejects.1 ["tank"] c8_info_no_regs (Or.inr (Or.inr rfl)),
   c8_validation_rejects.2.1 ["tank"] c8_info_alarm [c8_alarm_no_update]
     c8_alarm_no_update rfl (by decide) (by decide) rfl,
   c8_validation_rejects.2.2 c8_role_info [c8_alarm_no_update]
     c8_alarm_no_update rfl (by decide) (by decide) rfl⟩

/-- Keys after a dict assignment: the old keys plus the assigned key. -/
theorem dict_set_keys {κ β : Type} [DecidableEq κ] (m : List (κ × β)) (k : κ) (v : β)
    (x : κ) : x ∈ (dict_set m k v).map Prod.fst ↔ x ∈ m.map Prod.fst ∨ x = k := by
  induction m with
  | nil => simp [dict_set]
  | cons p rest ih =>
    obtain ⟨k', v'⟩ := p
    unfold dict_set
    by_cases hk : k' = k
    · subst hk
      rw [if_pos rfl]
      simp only [List.map_cons, List.mem_cons]
      tauto
    · rw [if_neg hk]
      simp only [List.map_cons, List.mem_cons, ih]
      tauto

/-- Keys of the folded `values[role] = {}` initialisation. -/
theorem init_values_aux (roles : List (Option String)) (acc : Values) (x : Option String) :
    x ∈ (roles.foldl (fun vs r => dict_set vs r ([] : RoleMap)) acc).map Prod.fst
      ↔ x ∈ acc.map Prod.fst ∨ x ∈ roles := by
  induction roles generalizing acc with
  | nil => simp
  | cons r rs ih =>
    simp only [List.foldl_cons, ih, dict_set_keys, List.mem_cons]
    tauto

/-- The initial `values` dict has exactly the declared roles as keys. -/
theorem init_values_keys (roles : List (Option String)) (x : Option String) :
    x ∈ (init_values roles).map Prod.fst ↔ x ∈ roles := by
  unfold init_values
  rw [init_values_aux]
  simp

/-- Writing a field value through an existing role key succeeds and
leaves the key list unchanged. -/
theorem set_role_value_some (vals : Values) (role : Option String) (nm : String)
    (v : Value) (h : role ∈ vals.map Prod.fst) :
    ∃ vals', set_role_value vals role nm v = some vals'
      ∧ vals'.map Prod.fst = vals.map Prod.fst := by
  induction vals with
  | nil => simp at h
  | cons p rest ih =>
    obtain ⟨r, m⟩ := p
    unfold set_role_value
    by_cases hr : r = role
    · simp only [if_pos hr]
      exact ⟨(r, dict_set m nm v) :: rest, rfl, by simp⟩
    · simp only [if_neg hr]
      have hmem : role ∈ rest.map Prod.fst := by
        simp only [List.map_cons, List.mem_cons] at h
        rcases h with h | h
        · exact absurd h.symm hr
        · exact h
      obtain ⟨vals', hv, hk⟩ := ih hmem
      rw [hv]
      exact ⟨(r, m) :: vals', rfl, by simp [hk]⟩

/-- Fanning a value out to roles that all exist succeeds and leaves the
key list unchanged. -/
theorem fan_out_some (fan : List (Option String)) :
    ∀ (vals : Values) (nm : String) (v : Value),
    (∀ r ∈ fan, r ∈ vals.map Prod.fst) →
    ∃ vals', fan_out vals fan nm v = some vals'
      ∧ vals'.map Prod.fst = vals.map Prod.fst := by
  induction fan with
  | nil => intro vals nm v _; exact ⟨vals, rfl, rfl⟩
  | cons r rs ih =>
    intro vals nm v h
    obtain ⟨vals1, h1, hk1⟩ := set_role_value_some vals r nm v (h r (by simp))
    unfold fan_out
    simp only [h1]
    obtain ⟨vals2, h2, hk2⟩ := ih vals1 nm v
      (fun x hx => by rw [hk1]; exact h x (by simp [hx]))
    exact ⟨vals2, h2, hk2.trans hk1⟩

/-- The register loop of `_parse_manufacturer_data` succeeds and
preserves the role-key list, provided no per-reg decode raises and every
explicit role reference (ignoring the `None` sentinel) is a declared
role. -/
theorem parse_regs_ok (roles : List (Option String)) (data : List Nat) :
    ∀ (regs : List Reg) (vals : Values),
    (∀ reg ∈ regs, ∃ ov, reg_value reg data = .ok ov) →
    (∀ reg ∈ regs, ∀ r ∈ reg.roles.getD [], r = none ∨ r ∈ roles) →
    (∀ r ∈ roles, r ∈ vals.map Prod.fst) →
    ∃ m, parse_regs roles data vals regs = .ok m
      ∧ m.map Prod.fst = vals.map Prod.fst := by
  intro regs
  induction regs with
  | nil => intro vals _ _ _; exact ⟨vals, rfl, rfl⟩
  | cons reg rest ih =>
    intro vals hok hsub hroles
    obtain ⟨ov, hov⟩ := hok reg (by simp)
    have hok' : ∀ r ∈ rest, ∃ o, reg_value r data = .ok o :=
      fun r hr => hok r (by simp [hr])
    have hsub' : ∀ r ∈ rest, ∀ x ∈ r.roles.getD [], x = none ∨ x ∈ roles :=
      fun r hr => hsub r (by simp [hr])
    unfold parse_regs
    rw [hov]
    cases ov with
    | none => exact ih vals hok' hsub' hroles
    | some v =>
      by_cases hskip : (match reg.roles with
          | some l => decide (l ≠ []) && l.contains none
          | none => false) = true
      · simp only [if_pos hskip]
        exact ih vals hok' hsub' hroles
      · simp only [if_neg hskip]
        have hfan : ∀ r ∈ (match reg.roles with | none => roles | some l => l),
            r ∈ vals.map Prod.fst := by
          cases hrr : reg.roles with
          | none => exact fun r hr => hroles r hr
          | some l =>
            intro r hr
            rcases hsub reg (by simp) r (by rw [hrr]; simpa using hr) with h0 | hmem
            · exfalso
              apply hskip
              rw [hrr]
              subst h0
              have hne : l ≠ [] := by
                intro he
                rw [he] at hr
                cases hr
              simp only [Bool.and_eq_true, decide_eq_true_eq]
              exact ⟨hne, by simpa [List.contains] using List.elem_iff.mpr hr⟩
            · exact hroles r hmem
        obtain ⟨vals1, h1, hk1⟩ := fan_out_some _ vals reg.name v hfan
        simp only [h1]
        obtain ⟨m, hm, hk⟩ := ih vals1 hok' hsub'
          (fun r hr => by rw [hk1]; exact hroles r hr)
        exact ⟨m, hm, hk.trans hk1⟩

/-- A reg whose explicit roles list names a registered role that the
device does not declare. -/
def c9_reg : Reg :=
  { name := "X", type := .Byte, offset := 0, roles := some [some "temperature"] }

/-- A device config that validates against a registry containing both
"tank" and "temperature" although `c9_reg` fans out to the undeclared
role "temperature". -/
def c9_info : DeviceInfo :=
  { manufacturer_id := .val 1, product_id := .val 2, product_name := .val "p",
    device_name := .val "d", dev_pref := .val "x", roles := .val [some "tank"],
    regs := .val [c9_reg], settings := .val [], alarms := .val [] }

/-- A String reg whose explicit roles list IS a subset of the declared
roles (used to refute the claim's universal half). -/
def c9_str_reg : Reg :=
  { name := "S", type := .String, offset := 0, bits := some 8,
    roles := some [some "tank"] }

/-- A validated device config holding `c9_str_reg`. -/
def c9_str_info : DeviceInfo :=
  { manufacturer_id := .val 1, product_id := .val 2, product_name := .val "p",
    device_name := .val "d", dev_pref := .val "x", roles := .val [some "tank"],
    regs := .val [c9_str_reg], settings := .val [], alarms := .val [] }

/-- C9 counterexample to the claim's universal half as stated: a
validated configuration whose single reg's explicit roles list equals
the declared role list (so the subset condition holds), yet decoding
payload `[0xFF]` raises `UnicodeDecodeError` instead of returning a
mapping keyed by the declared roles. -/
theorem c9_counterexample :
    check_configuration ["tank"] c9_str_info = .ok ()
  ∧ c9_str_info.roles = .val [some "tank"]
  ∧ c9_str_info.regs = .val [c9_str_reg]
  ∧ c9_str_reg.roles = some [some "tank"]
  ∧ parse_manufacturer_data [some "tank"] [c9_str_reg] [0xFF]
      = .error "UnicodeDecodeError" :=
  ⟨by decide, rfl, rfl, rfl, by decide⟩

/-- C9 (amended): on a validated configuration whose regs' explicit role
lists (ignoring the ignore sentinel) are subsets of the declared roles,
and whose per-reg decodes all return (no reg raises, cf. C3), decoding
returns a mapping whose keys are exactly the declared roles; but some
validated configuration whose reg names a registered role outside the
declared roles makes decoding raise `KeyError` (validation does not rule
this out). -/
theorem c9_role_fanout :
    (∀ (registry : List String) (c : DeviceInfo) (roles : List (Option String))
        (regs : List Reg) (data : List Nat),
        check_configuration registry c = .ok () →
        c.roles = .val roles → c.regs = .val regs →
        (∀ reg ∈ regs, ∃ ov, reg_value reg data = .ok ov) →
        (∀ reg ∈ regs, ∀ r ∈ reg.roles.getD [], r = none ∨ r ∈ roles) →
        ∃ m, parse_manufacturer_data roles regs data = .ok m
          ∧ ∀ k, k ∈ m.map Prod.fst ↔ k ∈ roles)
  ∧ (check_configuration ["tank", "temperature"] c9_info = .ok ()
      ∧ c9_info.roles = .val [some "tank"]
      ∧ c9_info.regs = .val [c9_reg]
      ∧ c9_reg.roles = some [some "temperature"]
      ∧ parse_manufacturer_data [some "tank"] [c9_reg] [5] = .error "KeyError") := by
  constructor
  · intro registry c roles regs data hchk hroles hregs hok hsub
    obtain ⟨m, hm, hk⟩ := parse_regs_ok roles data regs (init_values roles) hok hsub
      (fun r hr => (init_values_keys roles r).mpr hr)
    refine ⟨m, hm, fun k => ?_⟩
    rw [hk]
    exact init_values_keys roles k
  · exact ⟨by decide, rfl, rfl, rfl, by decide⟩

/-- A plain byte reg with no explicit roles, for the C9 witness. -/
def c9w_reg : Reg := { name := "T", type := .Byte, offset := 0 }

/-- A validated single-role device config holding `c9w_reg`. -/
def c9w_info : DeviceInfo :=
  { manufacturer_id := .val 1, product_id := .val 2, product_name := .val "p",
    device_name := .val "d", dev_pref := .val "x", roles := .val [some "tank"],
    regs := .val [c9w_reg], settings := .val [], alarms := .val [] }

/-- Witness for C9's quantified half at a concrete configuration. -/
theorem c9_role_fanout_witness :
    ∃ m, parse_manufacturer_data [some "tank"] [c9w_reg] [7] = .ok m
      ∧ ∀ k, k ∈ m.map Prod.fst ↔ k ∈ [some "tank"] :=
  c9_role_fanout.1 ["tank"] c9w_info [some "tank"] [c9w_reg] [7]
    (by decide) rfl rfl
    (by
      intro reg hr
      rw [List.mem_singleton] at hr
      subst hr
      exact ⟨some (Value.num 7), by decide⟩)
    (by
      intro reg hr r hrr
      rw [List.mem_singleton] at hr
      subst hr
      simp [c9w_reg] at hrr)
